import Mathlib

/-!
# TodoWidget task collection manager: shallow embedding

This file embeds the task-collection core of the TodoWidget repository
(`src/models/task.h`, `src/models/task.cpp`, `src/models/taskmodel.cpp`,
`src/controllers/taskcontroller.cpp`, `src/services/databasemanager.cpp`)
and proves/refutes the specification's claims about it.

Modelling conventions:
* `QDateTime` values are `Option Int`: `none` is an invalid (unset) datetime,
  `some t` a valid one with timestamp `t`.
* `QString` is `String`; C++ `int` is `Int` (values stay far from 2^31 here,
  so no wrap-around modelling is needed for the claims at hand).
* Environment inputs (the UUID generator of `QUuid::createUuid`, the clock of
  `QDateTime::currentDateTime`) are explicit parameters.
* Fallible or partial operations return `Option`: in particular `QList::move`,
  whose documented precondition is `0 <= from < size()` and `0 <= to < size()`,
  is `none` outside that range (a `Q_ASSERT` failure / out-of-range access).
-/

namespace TodoWidget

/-- Task record (`src/models/task.h`). -/
structure Task where
  id : String
  title : String
  description : String
  completed : Bool
  createdDate : Option Int
  dueDate : Option Int
  categoryId : String
  priority : Int
  displayOrder : Int
deriving DecidableEq

/-- Hex digit character, used by the model of `QUuid::toString`. -/
def hexDigitChar (n : Nat) : Char :=
  if n < 10 then Char.ofNat (48 + n) else Char.ofNat (87 + n)

/-- Hex digits: `k` digits of `n`, most significant first (zero-padded to width `k`). -/
def hexPad (k n : Nat) : List Char :=
  (List.range k).map (fun i => hexDigitChar (n / 16 ^ (k - 1 - i) % 16))

/-- Model of `QUuid::createUuid().toString().remove('{').remove('}')`
(`src/models/task.cpp:27`): the brace-stripped textual form
`xxxxxxxx-xxxx-xxxx-xxxx-xxxxxxxxxxxx` of a random UUID, whose five fields
are made explicit parameters.  Whatever the random values, the resulting
string has exactly 36 characters. -/
def quuidString (a b c d e : Nat) : String :=
  String.mk (hexPad 8 a ++ '-' :: hexPad 4 b ++ '-' :: hexPad 4 c ++
    '-' :: hexPad 4 d ++ '-' :: hexPad 12 e)

/-- Embedding of `Task::Task()` (`src/models/task.cpp:26`): fresh UUID id, empty title and
description, not completed, creation date = now, no due date, priority 3,
display order `-1`. -/
def Task.mkDefault (freshId : String) (now : Int) : Task :=
  { id := freshId, title := "", description := "", completed := false,
    createdDate := some now, dueDate := none, categoryId := "", priority := 3,
    displayOrder := -1 }

/-- Embedding of `Task::Task(title, categoryId)` (`src/models/task.cpp:49`). -/
def Task.mkNew (title categoryId : String) (freshId : String) (now : Int) : Task :=
  { id := freshId, title := title, description := "", completed := false,
    createdDate := some now, dueDate := none, categoryId := categoryId,
    priority := 3, displayOrder := -1 }

/-- State of `TaskModel` (`src/models/taskmodel.h`): the authoritative list
`m_tasks`, the filtered list `m_filteredTasks`, and the `m_isFiltered` flag. -/
structure TaskModel where
  tasks : List Task
  filteredTasks : List Task
  isFiltered : Bool
deriving DecidableEq

/-- Embedding of `TaskModel::TaskModel` (`src/models/taskmodel.cpp:26`): empty, unfiltered. -/
def TaskModel.init : TaskModel :=
  { tasks := [], filteredTasks := [], isFiltered := false }

/-- Embedding of `TaskModel::rowCount` (`src/models/taskmodel.cpp:40`). -/
def TaskModel.rowCount (m : TaskModel) : Nat :=
  if m.isFiltered then m.filteredTasks.length else m.tasks.length

/-- The list the model currently operates on (`m_isFiltered ? m_filteredTasks
: m_tasks`, the selection made at `src/models/taskmodel.cpp:462` and 496). -/
def TaskModel.active (m : TaskModel) : List Task :=
  if m.isFiltered then m.filteredTasks else m.tasks

/-- Embedding of `TaskModel::getNextDisplayOrder` (`src/models/taskmodel.cpp:633`): scan
`m_tasks` for the maximal display order, starting from `-1`, and add 1. -/
def TaskModel.getNextDisplayOrder (m : TaskModel) : Int :=
  (m.tasks.foldl (fun mx t => if t.displayOrder > mx then t.displayOrder else mx) (-1)) + 1

/-- Embedding of `TaskModel::addTask` (`src/models/taskmodel.cpp:305`): copy the task, give
the copy the next display order, append it to `m_tasks`; if a filter is active
and the copy's category equals the category of the *first* filtered task,
also append the copy to `m_filteredTasks`. -/
def TaskModel.addTask (t : Task) (m : TaskModel) : TaskModel :=
  let newTask := { t with displayOrder := m.getNextDisplayOrder }
  let m' := { m with tasks := m.tasks ++ [newTask] }
  match m'.isFiltered, m'.filteredTasks with
  | true, f :: _ =>
      if newTask.categoryId = f.categoryId then
        { m' with filteredTasks := m'.filteredTasks ++ [newTask] }
      else m'
  | _, _ => m'

/-- The renumbering loop of `TaskModel::updateDisplayOrders`
(`src/models/taskmodel.cpp:499`): `taskList[i].setDisplayOrder(i)`,
started at position `i`. -/
def renumberFrom (i : Nat) : List Task → List Task
  | [] => []
  | t :: ts => { t with displayOrder := Int.ofNat i } :: renumberFrom (i + 1) ts

/-- One iteration of the write-back loops (`src/models/taskmodel.cpp:473` and
510): set the display order of the *first* task with the given id. -/
def setOrderOfFirst (tid : String) (o : Int) : List Task → List Task
  | [] => []
  | t :: ts =>
      if t.id = tid then { t with displayOrder := o } :: ts
      else t :: setOrderOfFirst tid o ts

/-- The write-back loops of `TaskModel::moveTask` and
`TaskModel::updateDisplayOrders`: for each filtered task in order, copy its
display order onto the first id-matching task of the main list. -/
def writeBackOrders (ts fs : List Task) : List Task :=
  fs.foldl (fun acc f => setOrderOfFirst f.id f.displayOrder acc) ts

/-- Embedding of `TaskModel::updateDisplayOrders` (`src/models/taskmodel.cpp:494`):
renumber the active list by position; when filtering, propagate the new
display orders back onto the main list by id. -/
def TaskModel.updateDisplayOrders (m : TaskModel) : TaskModel :=
  if m.isFiltered then
    let fs := renumberFrom 0 m.filteredTasks
    { m with filteredTasks := fs, tasks := writeBackOrders m.tasks fs }
  else
    { m with tasks := renumberFrom 0 m.tasks }

/-- Embedding of `TaskModel::removeTask` (`src/models/taskmodel.cpp:336`): find the first
id match in `m_tasks`; if filtering, also remove the first id match from
`m_filteredTasks`; remove from `m_tasks`; renumber.  Returns whether found. -/
def TaskModel.removeTask (tid : String) (m : TaskModel) : TaskModel × Bool :=
  match m.tasks.findIdx? (fun t => t.id = tid) with
  | none => (m, false)
  | some i =>
      let m1 := if m.isFiltered
        then { m with filteredTasks := m.filteredTasks.eraseP (fun t => t.id = tid) }
        else m
      let m2 := { m1 with tasks := m1.tasks.eraseIdx i }
      (m2.updateDisplayOrders, true)

/-- Embedding of `TaskModel::getTask` (`src/models/taskmodel.cpp:373`): linear scan of
`m_tasks` only; on a miss, return a default-constructed `Task()` (which draws
a fresh UUID and the current time — made explicit parameters here). -/
def TaskModel.getTask (tid : String) (freshId : String) (now : Int) (m : TaskModel) : Task :=
  match m.tasks.find? (fun t => t.id = tid) with
  | some t => t
  | none => Task.mkDefault freshId now

/-- Embedding of `TaskModel::setTasks` (`src/models/taskmodel.cpp:403`): install the new
list, drop the filter flag, and renumber iff some display order is negative. -/
def TaskModel.setTasks (ts : List Task) (m : TaskModel) : TaskModel :=
  let m1 := { m with tasks := ts, isFiltered := false }
  if m1.tasks.any (fun t => t.displayOrder < 0) then m1.updateDisplayOrders else m1

/-- Embedding of `QList::move(from, to)`: the element at `from` ends at index `to`.  The
documented precondition is that both indices lie in `[0, size())`; outside it
the call is an out-of-range access, modelled as `none`. -/
def qlistMove {α : Type} (l : List α) (f t : Nat) : Option (List α) :=
  if h : f < l.length ∧ t < l.length then
    some ((l.eraseIdx f).insertIdx t (l.get ⟨f, h.1⟩))
  else none

/-- Embedding of `TaskModel::moveTask` (`src/models/taskmodel.cpp:436`): validate
`0 <= fromRow < rowCount` and `0 <= toRow <= rowCount` (returning `false`
otherwise), treat `fromRow == toRow` as a successful no-op, then
`QList::move` on the active list, renumber, and — when filtering — write the
filtered display orders back onto the main list by id. -/
def TaskModel.moveTask (fromRow toRow : Int) (m : TaskModel) : Option (TaskModel × Bool) :=
  if fromRow < 0 ∨ (m.rowCount : Int) ≤ fromRow then some (m, false)
  else if toRow < 0 ∨ (m.rowCount : Int) < toRow then some (m, false)
  else if fromRow = toRow then some (m, true)
  else
    match qlistMove m.active fromRow.toNat toRow.toNat with
    | none => none
    | some moved =>
        let m1 := if m.isFiltered then { m with filteredTasks := moved }
                  else { m with tasks := moved }
        let m2 := m1.updateDisplayOrders
        let m3 := if m2.isFiltered
          then { m2 with tasks := writeBackOrders m2.tasks m2.filteredTasks }
          else m2
        some (m3, true)

/-- Embedding of `TaskModel::filterByCategory` (`src/models/taskmodel.cpp:528`). -/
def TaskModel.filterByCategory (cat : String) (m : TaskModel) : TaskModel :=
  if cat = "" then { m with isFiltered := false }
  else
    { m with filteredTasks := m.tasks.filter (fun t => t.categoryId = cat),
             isFiltered := true }

/-- Embedding of `TaskModel::clearFilter` (`src/models/taskmodel.cpp:552`): only the flag
is dropped; `m_filteredTasks` is left as-is (and ignored while unfiltered). -/
def TaskModel.clearFilter (m : TaskModel) : TaskModel :=
  { m with isFiltered := false }

/-- The comparator of `TaskModel::sortByDueDate` (`src/models/taskmodel.cpp:573`). -/
def dueDateLt (ascending : Bool) (a b : Task) : Bool :=
  match a.dueDate, b.dueDate with
  | none, some _ => false
  | some _, none => true
  | none, none => false
  | some x, some y => if ascending then decide (x < y) else decide (y < x)

/-- The comparator of `TaskModel::sortByPriority` (`src/models/taskmodel.cpp:609`). -/
def priorityLt (ascending : Bool) (a b : Task) : Bool :=
  if ascending then decide (a.priority < b.priority) else decide (b.priority < a.priority)

/-- Sorted insertion under a strict comparator. -/
def insertSorted (lt : Task → Task → Bool) (x : Task) : List Task → List Task
  | [] => [x]
  | y :: ys => if lt x y then x :: y :: ys else y :: insertSorted lt x ys

/-- Model of `std::sort` with a strict-weak-order comparator: `std::sort`
guarantees exactly that its output is a permutation of the input sorted with
respect to the comparator (the particular algorithm, and the order among
comparator-equivalent elements, are unspecified); a deterministic sort with
that comparator realises this contract. -/
def sortWith (lt : Task → Task → Bool) : List Task → List Task
  | [] => []
  | x :: xs => insertSorted lt x (sortWith lt xs)

/-- Embedding of `TaskModel::sortByDueDate` (`src/models/taskmodel.cpp:569`): sort the
active list with the due-date comparator, then renumber. -/
def TaskModel.sortByDueDate (ascending : Bool) (m : TaskModel) : TaskModel :=
  let m1 := if m.isFiltered
    then { m with filteredTasks := sortWith (dueDateLt ascending) m.filteredTasks }
    else { m with tasks := sortWith (dueDateLt ascending) m.tasks }
  m1.updateDisplayOrders

/-- Embedding of `TaskModel::sortByPriority` (`src/models/taskmodel.cpp:605`). -/
def TaskModel.sortByPriority (ascending : Bool) (m : TaskModel) : TaskModel :=
  let m1 := if m.isFiltered
    then { m with filteredTasks := sortWith (priorityLt ascending) m.filteredTasks }
    else { m with tasks := sortWith (priorityLt ascending) m.tasks }
  m1.updateDisplayOrders

/-- The propagation step of `TaskModel::setData` (`src/models/taskmodel.cpp:141`):
assign the whole updated task over the first id-matching task of `m_tasks`. -/
def replaceFirstById (t : Task) : List Task → List Task
  | [] => []
  | u :: us => if u.id = t.id then t :: us else u :: replaceFirstById t us

/-- Embedding of `TaskModel::setData` (`src/models/taskmodel.cpp:104`) for one role, the
role-specific field update abstracted as `upd`: update the task at `row` of
the active list; when filtering, copy the whole updated task back onto the
first id-matching task of `m_tasks`.  An invalid index returns `false`. -/
def TaskModel.setDataAt (upd : Task → Task) (row : Nat) (m : TaskModel) : TaskModel × Bool :=
  if row < m.rowCount then
    if m.isFiltered then
      match m.filteredTasks.get? row with
      | some t0 =>
          let t := upd t0
          ({ m with filteredTasks := m.filteredTasks.set row t,
                    tasks := replaceFirstById t m.tasks }, true)
      | none => (m, false)
    else
      match m.tasks.get? row with
      | some t0 => ({ m with tasks := m.tasks.set row (upd t0) }, true)
      | none => (m, false)
  else (m, false)

/-- Persisted row of the `tasks` table (`src/services/databasemanager.cpp:242`). -/
structure TaskRow where
  id : String
  title : String
  description : String
  completed : Int
  created_date : String
  due_date : String
  category_id : String
  priority : Int
  display_order : Int
deriving DecidableEq

/-- Stand-in for `QDateTime::toString(Qt::ISODate)` on a *valid* datetime.
Qt's rendering of a valid datetime is injective, invertible by
`QDateTime::fromString(..., Qt::ISODate)`, and never the empty string; this
encoding has exactly those properties (sign character followed by a tally),
which are the only ones the persistence claims depend on. -/
def isoOfTime (t : Int) : String :=
  if t < 0 then String.mk ('-' :: List.replicate (-t).toNat 'x')
  else String.mk ('+' :: List.replicate t.toNat 'x')

/-- Stand-in for `QDateTime::fromString(s, Qt::ISODate)`: inverse of
`isoOfTime`; the empty string parses to an invalid (unset) datetime. -/
def timeOfIso (s : String) : Option Int :=
  match s.data with
  | [] => none
  | c :: cs => if c = '-' then some (-(cs.length : Int)) else some ((cs.length : Int))

/-- Encoding `isValid() ? toString(Qt::ISODate) : ""` — the datetime column encoding
used by `DatabaseManager::saveTasks`/`saveTask`
(`src/services/databasemanager.cpp:250-251`, 329-330): a valid datetime is
rendered, an invalid one becomes the empty string. -/
def encodeDate : Option Int → String
  | some t => isoOfTime t
  | none => ""

/-- Task → SQL row, field for field as bound by
`DatabaseManager::saveTasks` (`src/services/databasemanager.cpp:245-254`). -/
def taskToRow (t : Task) : TaskRow :=
  { id := t.id, title := t.title, description := t.description,
    completed := if t.completed then 1 else 0,
    created_date := encodeDate t.createdDate,
    due_date := encodeDate t.dueDate,
    category_id := t.categoryId, priority := t.priority,
    display_order := t.displayOrder }

/-- SQL row → Task, as read by `DatabaseManager::loadTasks`
(`src/services/databasemanager.cpp:283-298`): `completed` via integer
`toBool` (non-zero is true), `created_date` parsed unconditionally, and
`due_date` parsed only when non-empty (an empty string leaves the due date
unset). -/
def rowToTask (r : TaskRow) : Task :=
  { id := r.id, title := r.title, description := r.description,
    completed := decide (r.completed ≠ 0),
    createdDate := timeOfIso r.created_date,
    dueDate := if r.due_date = "" then none else timeOfIso r.due_date,
    categoryId := r.category_id, priority := r.priority,
    displayOrder := r.display_order }

/-- Persistence-port state: the `m_initialized` flag of `DatabaseManager` and
the rows of the `tasks` table. -/
structure Database where
  initialized : Bool
  taskRows : List TaskRow
deriving DecidableEq

/-- Embedding of `DatabaseManager::saveTasks` (`src/services/databasemanager.cpp:224`):
fails if uninitialized; otherwise delete-all-then-insert-all in one
transaction. -/
def Database.saveTasks (ts : List Task) (db : Database) : Database × Bool :=
  if db.initialized then ({ db with taskRows := ts.map taskToRow }, true)
  else (db, false)

/-- Embedding of `DatabaseManager::loadTasks` (`src/services/databasemanager.cpp:273`):
empty list if uninitialized, otherwise every stored row decoded. -/
def Database.loadTasks (db : Database) : List Task :=
  if db.initialized then db.taskRows.map rowToTask else []

/-- Semantics of `INSERT OR REPLACE` keyed by the primary key `id`. -/
def upsertRow (r : TaskRow) : List TaskRow → List TaskRow
  | [] => [r]
  | u :: us => if u.id = r.id then r :: us else u :: upsertRow r us

/-- Embedding of `DatabaseManager::saveTask` (`src/services/databasemanager.cpp:315`). -/
def Database.saveTask (t : Task) (db : Database) : Database × Bool :=
  if db.initialized then
    ({ db with taskRows := upsertRow (taskToRow t) db.taskRows }, true)
  else (db, false)

/-- Combined controller-visible state: the model and the database. -/
structure AppState where
  model : TaskModel
  db : Database
deriving DecidableEq

/-- Embedding of `TaskController::addTask` (`src/controllers/taskcontroller.cpp:42`):
reject an empty title; build the task (fresh UUID and clock made explicit),
set description, due date and priority; add it to the model; then hand *the
local copy* — not the model's copy — to `DatabaseManager::saveTask`. -/
def controllerAddTask (title categoryId description : String) (dueDate : Option Int)
    (priority : Int) (freshId : String) (now : Int) (s : AppState) : AppState × Bool :=
  if title = "" then (s, false)
  else
    let task := { Task.mkNew title categoryId freshId now with
                  description := description, dueDate := dueDate, priority := priority }
    let model := s.model.addTask task
    let (db, ok) := s.db.saveTask task
    ({ model := model, db := db }, ok)

/-- Embedding of `TaskController::updateTask` (`src/controllers/taskcontroller.cpp:88`):
reject an empty title; fetch the task by id and treat an *empty* returned id
as "not found"; otherwise overwrite its fields, re-apply them role by role to
the first model row whose id matches, and upsert the rebuilt task. -/
def controllerUpdateTask (tid title categoryId description : String) (dueDate : Option Int)
    (priority : Int) (freshId : String) (now : Int) (s : AppState) : AppState × Bool :=
  if title = "" then (s, false)
  else
    let task0 := s.model.getTask tid freshId now
    if task0.id = "" then (s, false)
    else
      let task := { task0 with
        title := title, categoryId := categoryId, description := description,
        dueDate := dueDate, priority := priority }
      let model :=
        match s.model.active.findIdx? (fun t => t.id = tid) with
        | none => s.model
        | some i =>
            let m1 := (s.model.setDataAt (fun t => { t with title := title }) i).1
            let m2 := (m1.setDataAt (fun t => { t with description := description }) i).1
            let m3 := (m2.setDataAt (fun t => { t with categoryId := categoryId }) i).1
            let m4 := (m3.setDataAt (fun t => { t with dueDate := dueDate }) i).1
            (m4.setDataAt (fun t => { t with priority := priority }) i).1
      let (db, ok) := s.db.saveTask task
      ({ model := model, db := db }, ok)

/-- The engine operations quantified over by the display-order claims. -/
inductive EngineOp where
  | add (t : Task)
  | remove (tid : String)
  | move (fromRow toRow : Int)
  | sortDue (ascending : Bool)
  | sortPrio (ascending : Bool)
  | filter (categoryId : String)
  | clear
  | replaceAll (ts : List Task)
deriving DecidableEq

/-- One engine step; `none` when the operation runs into the out-of-range
internal `QList::move`. -/
def applyOp (m : TaskModel) : EngineOp → Option TaskModel
  | .add t => some (m.addTask t)
  | .remove tid => some (m.removeTask tid).1
  | .move f t => (m.moveTask f t).map Prod.fst
  | .sortDue b => some (m.sortByDueDate b)
  | .sortPrio b => some (m.sortByPriority b)
  | .filter c => some (m.filterByCategory c)
  | .clear => some m.clearFilter
  | .replaceAll ts => some (m.setTasks ts)

/-- Run a sequence of engine operations from a starting state. -/
def runOps (m : TaskModel) (ops : List EngineOp) : Option TaskModel :=
  ops.foldlM applyOp m

/-- Dense display orders: position `i` of the authoritative list carries
display order `i`. -/
def DenseOrders (l : List Task) : Prop :=
  l.map Task.displayOrder = (List.range l.length).map (fun i => Int.ofNat i)

/-- Operations whose display-order effect the amended density claim covers:
everything except installing a whole new list (`setTasks`) and activating a
non-trivial category filter. -/
def allowedOp : EngineOp → Bool
  | .filter c => c = ""
  | .replaceAll _ => false
  | _ => true

/-- The task value built by `TaskController::addTask`
(`src/controllers/taskcontroller.cpp:50-59`) just before it is handed to the
model and to the store: the two-argument constructor plus description, due
date and priority; its `displayOrder` is still the constructor's `-1`. -/
def builtTask (title categoryId description : String) (due : Option Int)
    (priority : Int) (fresh : String) (now : Int) : Task :=
  { id := fresh, title := title, description := description, completed := false,
    createdDate := some now, dueDate := due, categoryId := categoryId,
    priority := priority, displayOrder := -1 }

/-! ## Sample data used by concrete evaluations -/

/-- Concrete task used in counterexamples and witnesses. -/
def taskA : Task :=
  { id := "a", title := "A", description := "", completed := false,
    createdDate := some 0, dueDate := none, categoryId := "x", priority := 3,
    displayOrder := -1 }

/-- Concrete task used in counterexamples and witnesses. -/
def taskB : Task :=
  { taskA with id := "b", title := "B", categoryId := "y", dueDate := some 7 }

/-- Concrete task used in counterexamples and witnesses. -/
def taskC : Task :=
  { taskA with id := "c", title := "C", categoryId := "x" }

/-- Three tasks with categories (x, y, x) added to a fresh model: display
orders 0, 1, 2. -/
def sampleModel3 : TaskModel :=
  ((TaskModel.init.addTask taskA).addTask taskB).addTask taskC

/-- A single-task model. -/
def sampleModel1 : TaskModel :=
  TaskModel.init.addTask taskA

/-- An initialized, empty database. -/
def sampleDb : Database := { initialized := true, taskRows := [] }

/-- Empty model over an initialized store. -/
def sampleApp : AppState := { model := TaskModel.init, db := sampleDb }

/-- A concrete value of the UUID string model. -/
def sampleUuid : String := quuidString 0 0 0 0 0

/-! ## Generic list lemmas -/

theorem map_eraseIdx {α β : Type} (g : α → β) :
    ∀ (l : List α) (n : Nat), (l.eraseIdx n).map g = (l.map g).eraseIdx n
  | [], _ => rfl
  | _ :: _, 0 => rfl
  | x :: xs, n + 1 => by
      simp only [List.eraseIdx, List.map_cons, map_eraseIdx g xs n]

theorem map_insertIdx {α β : Type} (g : α → β) :
    ∀ (l : List α) (n : Nat) (x : α),
      (l.insertIdx n x).map g = (l.map g).insertIdx n (g x)
  | _, 0, _ => rfl
  | [], n + 1, _ => rfl
  | y :: ys, n + 1, x => by
      simp only [List.insertIdx_succ_cons, List.map_cons, map_insertIdx g ys n x]

theorem insertIdx_eraseIdx_self {α : Type} :
    ∀ (l : List α) (n : Nat) (h : n < l.length),
      (l.eraseIdx n).insertIdx n (l.get ⟨n, h⟩) = l
  | _ :: _, 0, _ => rfl
  | x :: xs, n + 1, h => by
      simp only [List.eraseIdx, List.insertIdx_succ_cons, List.cons.injEq, true_and]
      exact insertIdx_eraseIdx_self xs n (Nat.lt_of_succ_lt_succ h)

/-- Reduction of `qlistMove` inside its documented range. -/
theorem qlistMove_in_range {α : Type} (l : List α) (f t : Nat)
    (hf : f < l.length) (ht : t < l.length) :
    qlistMove l f t = some ((l.eraseIdx f).insertIdx t (l.get ⟨f, hf⟩)) := by
  simp only [qlistMove, dif_pos (And.intro hf ht)]

/-- Reduction of `qlistMove` outside its documented range. -/
theorem qlistMove_out_of_range {α : Type} (l : List α) (f t : Nat)
    (h : ¬(f < l.length ∧ t < l.length)) : qlistMove l f t = none := by
  simp only [qlistMove, dif_neg h]

theorem length_qlistMove {α : Type} {l l' : List α} {f t : Nat}
    (h : qlistMove l f t = some l') : l'.length = l.length := by
  by_cases hr : f < l.length ∧ t < l.length
  · rw [qlistMove_in_range l f t hr.1 hr.2] at h
    cases h
    have h1 : (l.eraseIdx f).length = l.length - 1 :=
      List.length_eraseIdx_of_lt hr.1
    have h2 : t ≤ (l.eraseIdx f).length := by omega
    rw [List.length_insertIdx t _ h2, h1]
    omega
  · rw [qlistMove_out_of_range l f t hr] at h
    cases h

theorem map_qlistMove {α β : Type} (g : α → β) {l l' : List α} {f t : Nat}
    (h : qlistMove l f t = some l') : qlistMove (l.map g) f t = some (l'.map g) := by
  by_cases hr : f < l.length ∧ t < l.length
  · rw [qlistMove_in_range l f t hr.1 hr.2] at h
    cases h
    have hf : f < (l.map g).length := by simpa using hr.1
    have ht : t < (l.map g).length := by simpa using hr.2
    rw [qlistMove_in_range (l.map g) f t hf ht, map_insertIdx, map_eraseIdx,
      List.get_map]
  · rw [qlistMove_out_of_range l f t hr] at h
    cases h

/-- Moving an element from `f` to `t` and then from `t` back to `f` restores
the list. -/
theorem qlistMove_roundtrip {α : Type} (l : List α) (f t : Nat)
    (hf : f < l.length) (ht : t < l.length) :
    (qlistMove l f t).bind (fun l2 => qlistMove l2 t f) = some l := by
  rw [qlistMove_in_range l f t hf ht, Option.some_bind]
  have h1 : (l.eraseIdx f).length = l.length - 1 := List.length_eraseIdx_of_lt hf
  have ht1 : t ≤ (l.eraseIdx f).length := by omega
  have hlen : ((l.eraseIdx f).insertIdx t (l.get ⟨f, hf⟩)).length = l.length := by
    rw [List.length_insertIdx t _ ht1]
    omega
  have ht2 : t < ((l.eraseIdx f).insertIdx t (l.get ⟨f, hf⟩)).length := by omega
  have hf2 : f < ((l.eraseIdx f).insertIdx t (l.get ⟨f, hf⟩)).length := by omega
  rw [qlistMove_in_range _ t f ht2 hf2]
  have hget : ((l.eraseIdx f).insertIdx t (l.get ⟨f, hf⟩)).get ⟨t, ht2⟩ =
      l.get ⟨f, hf⟩ := by
    have := List.getElem_insertIdx_self (l.eraseIdx f) (l.get ⟨f, hf⟩) t ht1
    simpa [List.get_eq_getElem] using this
  rw [hget, List.eraseIdx_insertIdx, insertIdx_eraseIdx_self l f hf]

/-! ## Lemmas on renumbering and write-back -/

theorem length_renumberFrom : ∀ (i : Nat) (l : List Task),
    (renumberFrom i l).length = l.length
  | _, [] => rfl
  | i, _ :: ts => by simp [renumberFrom, length_renumberFrom (i + 1) ts]

theorem map_id_renumberFrom : ∀ (i : Nat) (l : List Task),
    (renumberFrom i l).map Task.id = l.map Task.id
  | _, [] => rfl
  | i, _ :: ts => by simp [renumberFrom, map_id_renumberFrom (i + 1) ts]

theorem map_dueDate_renumberFrom : ∀ (i : Nat) (l : List Task),
    (renumberFrom i l).map Task.dueDate = l.map Task.dueDate
  | _, [] => rfl
  | i, _ :: ts => by simp [renumberFrom, map_dueDate_renumberFrom (i + 1) ts]

theorem map_displayOrder_renumberFrom : ∀ (i : Nat) (l : List Task),
    (renumberFrom i l).map Task.displayOrder =
      (List.range' i l.length).map (fun k => Int.ofNat k)
  | _, [] => rfl
  | i, _ :: ts => by
      simp [renumberFrom, List.range'_succ, map_displayOrder_renumberFrom (i + 1) ts]

/-- A renumbered list always has dense display orders. -/
theorem denseOrders_renumberFrom (l : List Task) : DenseOrders (renumberFrom 0 l) := by
  unfold DenseOrders
  rw [map_displayOrder_renumberFrom, length_renumberFrom,
    List.range_eq_range' l.length]

/-! ## Structural lemmas on the model operations -/

theorem addTask_tasks (m : TaskModel) (t : Task) :
    (m.addTask t).tasks = m.tasks ++ [{ t with displayOrder := m.getNextDisplayOrder }] := by
  unfold TaskModel.addTask
  cases m.isFiltered <;> cases m.filteredTasks <;> simp <;> split <;> rfl

theorem addTask_isFiltered (m : TaskModel) (t : Task) :
    (m.addTask t).isFiltered = m.isFiltered := by
  unfold TaskModel.addTask
  cases m.isFiltered <;> cases m.filteredTasks <;> simp <;> split <;> rfl

theorem updateDisplayOrders_isFiltered (m : TaskModel) :
    m.updateDisplayOrders.isFiltered = m.isFiltered := by
  unfold TaskModel.updateDisplayOrders
  cases h : m.isFiltered <;> simp [h]

theorem updateDisplayOrders_unfiltered (m : TaskModel) (h : m.isFiltered = false) :
    m.updateDisplayOrders = { m with tasks := renumberFrom 0 m.tasks } := by
  unfold TaskModel.updateDisplayOrders
  simp [h]

theorem updateDisplayOrders_filtered (m : TaskModel) (h : m.isFiltered = true) :
    m.updateDisplayOrders =
      { m with filteredTasks := renumberFrom 0 m.filteredTasks,
               tasks := writeBackOrders m.tasks (renumberFrom 0 m.filteredTasks) } := by
  unfold TaskModel.updateDisplayOrders
  simp [h]

theorem rowCount_eq_length_active (m : TaskModel) :
    m.rowCount = m.active.length := by
  unfold TaskModel.rowCount TaskModel.active
  cases h : m.isFiltered <;> simp

/-! ## The next display order under dense orders -/

/-- The running-maximum step of `getNextDisplayOrder`. -/
theorem foldl_maxStep_map (l : List Task) (a : Int) :
    l.foldl (fun mx t => if t.displayOrder > mx then t.displayOrder else mx) a =
      (l.map Task.displayOrder).foldl (fun mx o => if o > mx then o else mx) a := by
  rw [List.foldl_map]

theorem foldl_maxStep_range : ∀ n : Nat,
    ((List.range n).map (fun i => Int.ofNat i)).foldl
      (fun mx o => if o > mx then o else mx) (-1) = (n : Int) - 1
  | 0 => rfl
  | n + 1 => by
      rw [List.range_succ, List.map_append, List.foldl_append,
        foldl_maxStep_range n]
      simp only [List.map_cons, List.map_nil, List.foldl_cons, List.foldl_nil,
        Int.ofNat_eq_natCast]
      split <;> omega

/-- Under dense display orders the next display order is the length. -/
theorem getNextDisplayOrder_of_dense (m : TaskModel) (h : DenseOrders m.tasks) :
    m.getNextDisplayOrder = (m.tasks.length : Int) := by
  unfold TaskModel.getNextDisplayOrder
  rw [foldl_maxStep_map, h, foldl_maxStep_range]
  omega

/-- The fold of `getNextDisplayOrder` never goes below its seed, hence the
next display order is never negative. -/
theorem getNextDisplayOrder_nonneg (m : TaskModel) : 0 ≤ m.getNextDisplayOrder := by
  unfold TaskModel.getNextDisplayOrder
  have key : ∀ (l : List Task) (a : Int),
      a ≤ l.foldl (fun mx t => if t.displayOrder > mx then t.displayOrder else mx) a := by
    intro l
    induction l with
    | nil => intro a; simp
    | cons t ts ih =>
        intro a
        simp only [List.foldl_cons]
        refine le_trans ?_ (ih _)
        split <;> omega
  have := key m.tasks (-1)
  omega

/-! ## Shapes of the operations in the unfiltered state -/

theorem removeTask_unfiltered (m : TaskModel) (tid : String)
    (hf : m.isFiltered = false) :
    (m.removeTask tid).1 = m ∨
    ∃ i, (m.removeTask tid).1 = { m with tasks := renumberFrom 0 (m.tasks.eraseIdx i) } := by
  unfold TaskModel.removeTask
  cases heq : m.tasks.findIdx? (fun t => t.id = tid) with
  | none => exact Or.inl rfl
  | some i =>
      refine Or.inr ⟨i, ?_⟩
      simp only [hf, Bool.false_eq_true, if_false]
      rw [updateDisplayOrders_unfiltered _ (by simpa using hf)]

theorem moveTask_unfiltered_result (m : TaskModel) (f t : Int)
    (hf : m.isFiltered = false) :
    ∀ {p : TaskModel × Bool}, m.moveTask f t = some p →
      p.1 = m ∨ ∃ moved, p.1 = { m with tasks := renumberFrom 0 moved } := by
  intro p h
  unfold TaskModel.moveTask at h
  by_cases h1 : f < 0 ∨ (m.rowCount : Int) ≤ f
  · rw [if_pos h1] at h; cases h; exact Or.inl rfl
  · rw [if_neg h1] at h
    by_cases h2 : t < 0 ∨ (m.rowCount : Int) < t
    · rw [if_pos h2] at h; cases h; exact Or.inl rfl
    · rw [if_neg h2] at h
      by_cases h3 : f = t
      · rw [if_pos h3] at h; cases h; exact Or.inl rfl
      · rw [if_neg h3] at h
        cases hq : qlistMove m.active f.toNat t.toNat with
        | none => rw [hq] at h; cases h
        | some moved =>
            rw [hq] at h
            refine Or.inr ⟨moved, ?_⟩
            simp only [hf, Bool.false_eq_true, if_false] at h
            rw [updateDisplayOrders_unfiltered
              { tasks := moved, filteredTasks := m.filteredTasks, isFiltered := false }
              rfl] at h
            simp only [Bool.false_eq_true, if_false] at h
            cases h
            rw [hf]

theorem sortByDueDate_unfiltered (m : TaskModel) (b : Bool)
    (hf : m.isFiltered = false) :
    m.sortByDueDate b =
      { m with tasks := renumberFrom 0 (sortWith (dueDateLt b) m.tasks) } := by
  unfold TaskModel.sortByDueDate
  simp only [hf, Bool.false_eq_true, if_false]
  rw [updateDisplayOrders_unfiltered _ (by simpa using hf)]

theorem sortByPriority_unfiltered (m : TaskModel) (b : Bool)
    (hf : m.isFiltered = false) :
    m.sortByPriority b =
      { m with tasks := renumberFrom 0 (sortWith (priorityLt b) m.tasks) } := by
  unfold TaskModel.sortByPriority
  simp only [hf, Bool.false_eq_true, if_false]
  rw [updateDisplayOrders_unfiltered _ (by simpa using hf)]

/-! ## The density invariant for unfiltered operation sequences -/

theorem applyOp_preserves {m m' : TaskModel} {op : EngineOp}
    (hA : allowedOp op = true) (hf : m.isFiltered = false)
    (hd : DenseOrders m.tasks) (h : applyOp m op = some m') :
    m'.isFiltered = false ∧ DenseOrders m'.tasks := by
  cases op with
  | add t =>
      simp only [applyOp, Option.some.injEq] at h
      subst h
      have hnext := getNextDisplayOrder_of_dense m hd
      refine ⟨by rw [addTask_isFiltered]; exact hf, ?_⟩
      unfold DenseOrders at hd ⊢
      rw [addTask_tasks, List.map_append, hd, List.length_append]
      simp only [List.map_cons, List.map_nil, List.length_cons, List.length_nil,
        Nat.zero_add]
      rw [List.range_succ, List.map_append]
      simp only [List.map_cons, List.map_nil, List.cons.injEq, and_true, true_and]
      rw [hnext]
      simp [Int.ofNat_eq_natCast]
  | remove tid =>
      simp only [applyOp, Option.some.injEq] at h
      subst h
      rcases removeTask_unfiltered m tid hf with h1 | ⟨i, h1⟩
      · rw [h1]; exact ⟨hf, hd⟩
      · rw [h1]; exact ⟨hf, denseOrders_renumberFrom _⟩
  | move f t =>
      simp only [applyOp] at h
      cases hm : m.moveTask f t with
      | none => rw [hm] at h; cases h
      | some p =>
          rw [hm] at h
          simp only [Option.map_some', Option.some.injEq] at h
          subst h
          rcases moveTask_unfiltered_result m f t hf hm with h1 | ⟨moved, h1⟩
          · rw [h1]; exact ⟨hf, hd⟩
          · rw [h1]; exact ⟨hf, denseOrders_renumberFrom _⟩
  | sortDue b =>
      simp only [applyOp, Option.some.injEq] at h
      subst h
      rw [sortByDueDate_unfiltered m b hf]
      exact ⟨hf, denseOrders_renumberFrom _⟩
  | sortPrio b =>
      simp only [applyOp, Option.some.injEq] at h
      subst h
      rw [sortByPriority_unfiltered m b hf]
      exact ⟨hf, denseOrders_renumberFrom _⟩
  | filter c =>
      simp only [allowedOp, decide_eq_true_eq] at hA
      simp only [applyOp, Option.some.injEq] at h
      subst h
      unfold TaskModel.filterByCategory
      rw [if_pos hA]
      exact ⟨rfl, hd⟩
  | clear =>
      simp only [applyOp, Option.some.injEq] at h
      subst h
      exact ⟨rfl, hd⟩
  | replaceAll ts =>
      simp only [allowedOp] at hA
      exact absurd hA (by decide)

theorem runOps_preserves_dense : ∀ (ops : List EngineOp) (m0 m : TaskModel),
    m0.isFiltered = false → DenseOrders m0.tasks →
    ops.all allowedOp = true → runOps m0 ops = some m →
    m.isFiltered = false ∧ DenseOrders m.tasks
  | [], m0, m, hf, hd, _, h => by
      simp only [runOps, List.foldlM_nil, Option.pure_def, Option.some.injEq] at h
      subst h
      exact ⟨hf, hd⟩
  | op :: ops, m0, m, hf, hd, hA, h => by
      simp only [List.all_cons, Bool.and_eq_true] at hA
      simp only [runOps, List.foldlM_cons] at h
      cases h1 : applyOp m0 op with
      | none => rw [h1] at h; cases h
      | some m1 =>
          rw [h1] at h
          have step := applyOp_preserves hA.1 hf hd h1
          exact runOps_preserves_dense ops m1 m step.1 step.2 hA.2 h

/-! ## Claim C1: display-order density -/

/-- C1, corrected: for every operation sequence built from `add`, `remove`,
`move`, `sortByDueDate`, `sortByPriority`, `filterByCategory("")` and
`clearFilter` — i.e. sequences during which the engine stays unfiltered —
every reachable state has authoritative display orders exactly
`0, 1, ..., N-1` (so their multiset is `{0, ..., N-1}`).  The original
claim's "whether or not a category filter is active" part is false: under an
active filter the renumbering loop targets the filtered view and only writes
those orders back, so authoritative density can break
(see the counterexample). -/
theorem c1_displayOrder_density (ops : List EngineOp) (m : TaskModel)
    (hA : ops.all allowedOp = true) (h : runOps TaskModel.init ops = some m) :
    m.tasks.map Task.displayOrder =
      (List.range m.tasks.length).map (fun i => Int.ofNat i) :=
  (runOps_preserves_dense ops TaskModel.init m rfl rfl hA h).2

/-- Witness: a concrete unfiltered sequence (two adds and a move) reaching a
state whose display orders are `[0, 1]`. -/
theorem c1_displayOrder_density_witness :
    (TaskModel.mk [{ taskB with displayOrder := 0 }, { taskA with displayOrder := 1 }]
        [] false).tasks.map Task.displayOrder =
      (List.range (TaskModel.mk [{ taskB with displayOrder := 0 },
        { taskA with displayOrder := 1 }] [] false).tasks.length).map
        (fun i => Int.ofNat i) :=
  c1_displayOrder_density [.add taskA, .add taskB, .move 1 0]
    (TaskModel.mk [{ taskB with displayOrder := 0 }, { taskA with displayOrder := 1 }]
      [] false)
    (by decide) (by decide)

/-- Counterexample to C1 as stated: after
`add a; add b; add c; filterByCategory "x"; move 0 1` (categories x, y, x)
the authoritative collection has display orders `[1, 1, 0]` — a duplicate 1
and no 2 — which is not a permutation of `{0, 1, 2}`. -/
theorem c1_counterexample :
    (runOps TaskModel.init
        [.add taskA, .add taskB, .add taskC, .filter "x", .move 0 1]).map
        (fun m => (m.tasks.map Task.displayOrder, m.tasks.length)) =
      some ([1, 1, 0], 3) ∧
    ¬ ([1, 1, 0] : List Int).Perm ((List.range 3).map (fun i => Int.ofNat i)) :=
  ⟨by decide, by decide⟩

/-! ## Claim C2: the filtered move does not reorder the authoritative list -/

/-- C2, corrected: starting from three tasks with categories (x, y, x), the
sequence `filterByCategory x; move 0 1; clearFilter` succeeds, but the
authoritative list keeps its original task order `[ta, tb, tc]` — the two
x-tasks are *not* swapped in it.  Only the `displayOrder` fields are written
back: the second x-task gets 0 and the first gets 1, while the y-task keeps
its old displayOrder (now colliding with the first x-task instead of lying
between the two). -/
theorem c2_filtered_move_updates_orders_only
    (m : TaskModel) (ta tb tc : Task) (x : String)
    (hm : m.tasks = [ta, tb, tc]) (hx : x ≠ "")
    (hta : ta.categoryId = x) (htb : tb.categoryId ≠ x) (htc : tc.categoryId = x)
    (hac : ta.id ≠ tc.id) (hbc : tb.id ≠ tc.id) :
    ∃ mid, (m.filterByCategory x).moveTask 0 1 = some (mid, true) ∧
      mid.clearFilter.tasks =
        [{ ta with displayOrder := 1 }, tb, { tc with displayOrder := 0 }] ∧
      mid.clearFilter.isFiltered = false := by
  have hmf : m.filterByCategory x =
      TaskModel.mk [ta, tb, tc] [ta, tc] true := by
    unfold TaskModel.filterByCategory
    rw [if_neg hx, hm]
    simp [List.filter, hta, htb, htc]
  refine ⟨TaskModel.mk
      [{ ta with displayOrder := 1 }, tb, { tc with displayOrder := 0 }]
      [{ tc with displayOrder := 0 }, { ta with displayOrder := 1 }] true,
    ?_, rfl, rfl⟩
  rw [hmf]
  unfold TaskModel.moveTask
  rw [if_neg (by simp [TaskModel.rowCount]), if_neg (by simp [TaskModel.rowCount]),
    if_neg (by omega)]
  have hq : qlistMove (TaskModel.mk [ta, tb, tc] [ta, tc] true).active
      (Int.toNat 0) (Int.toNat 1) = some [tc, ta] := rfl
  rw [hq]
  simp only [if_true, TaskModel.updateDisplayOrders, writeBackOrders, renumberFrom,
    List.foldl, setOrderOfFirst, hac, hbc, if_false, if_true]
  simp [setOrderOfFirst, hac, hbc]

/-- Witness for the corrected C2 statement at concrete tasks. -/
theorem c2_filtered_move_updates_orders_only_witness :
    ∃ mid, (sampleModel3.filterByCategory "x").moveTask 0 1 = some (mid, true) ∧
      mid.clearFilter.tasks =
        [{ { taskA with displayOrder := 0 } with displayOrder := 1 },
         { taskB with displayOrder := 1 },
         { { taskC with displayOrder := 2 } with displayOrder := 0 }] ∧
      mid.clearFilter.isFiltered = false :=
  c2_filtered_move_updates_orders_only sampleModel3
    { taskA with displayOrder := 0 } { taskB with displayOrder := 1 }
    { taskC with displayOrder := 2 } "x"
    (by decide) (by decide) (by decide) (by decide) (by decide) (by decide) (by decide)

/-- Counterexample to C2 as stated: with concrete tasks a(x), b(y), c(x),
after `filterByCategory "x"; move 0 1; clearFilter` the authoritative list
still has id order `[a, b, c]` (not the swapped `[c, b, a]` the claim
requires), and its display orders are `[1, 1, 0]`: the y-task's displayOrder
now ties with the first x-task instead of separating the two x-tasks. -/
theorem c2_counterexample :
    ((sampleModel3.filterByCategory "x").moveTask 0 1).map
        (fun p => (p.1.clearFilter.tasks.map (fun t => (t.id, t.displayOrder)),
          p.1.clearFilter.isFiltered, p.2)) =
      some ([("a", 1), ("b", 1), ("c", 0)], false, true) ∧
    ((sampleModel3.filterByCategory "x").moveTask 0 1).map
        (fun p => p.1.clearFilter.tasks.map Task.id) ≠ some ["c", "b", "a"] :=
  ⟨by decide, by decide⟩

/-! ## Claim C3: `toIndex == len` reaches an out-of-range list move -/

/-- C3, evaluated at the failing inputs: on a one-task model, `moveTask 0 1`
passes both validation checks (`toRow == rowCount` is explicitly allowed as
"move to end") and `fromRow != toRow`, and then calls `QList::move(0, 1)` on a
list of size 1 — outside `QList::move`'s documented precondition
`0 <= to < size()`, an out-of-range access (modelled `none`).  By contrast
`toRow = rowCount + 1` is rejected cleanly with `false`, and the same
out-of-range access happens on a three-task model at `moveTask 1 3`. -/
theorem c3_moveToEnd_out_of_range :
    sampleModel1.rowCount = 1 ∧
    sampleModel1.moveTask 0 1 = none ∧
    sampleModel1.moveTask 0 2 = some (sampleModel1, false) ∧
    sampleModel3.rowCount = 3 ∧
    sampleModel3.moveTask 1 3 = none :=
  ⟨rfl, by decide, by decide, rfl, by decide⟩

/-! ## Claim C5: `move` fails exactly on out-of-range indices, mutating nothing -/

/-- C5, confirmed: `moveTask fromRow toRow` returns `false` exactly when
`fromRow` lies outside `[0, len(active))` or `toRow` outside
`[0, len(active)]`, and whenever it returns `false` the whole model state —
authoritative list, filtered list, every display order — is returned
unchanged. -/
theorem c5_moveTask_false_iff (m : TaskModel) (f t : Int) :
    (m.moveTask f t = some (m, false) ↔
      (f < 0 ∨ (m.active.length : Int) ≤ f ∨ t < 0 ∨ (m.active.length : Int) < t)) ∧
    (∀ m2 : TaskModel, m.moveTask f t = some (m2, false) → m2 = m) := by
  have hrc : (m.rowCount : Int) = (m.active.length : Int) := by
    rw [rowCount_eq_length_active]
  unfold TaskModel.moveTask
  by_cases h1 : f < 0 ∨ (m.rowCount : Int) ≤ f
  · rw [if_pos h1]
    refine ⟨⟨fun _ => ?_, fun _ => rfl⟩, fun m2 hm2 => ?_⟩
    · rw [hrc] at h1
      rcases h1 with h1 | h1
      · exact Or.inl h1
      · exact Or.inr (Or.inl h1)
    · simp only [Option.some.injEq, Prod.mk.injEq] at hm2
      exact hm2.1.symm
  · rw [if_neg h1]
    by_cases h2 : t < 0 ∨ (m.rowCount : Int) < t
    · rw [if_pos h2]
      refine ⟨⟨fun _ => ?_, fun _ => rfl⟩, fun m2 hm2 => ?_⟩
      · rw [hrc] at h2
        rcases h2 with h2 | h2
        · exact Or.inr (Or.inr (Or.inl h2))
        · exact Or.inr (Or.inr (Or.inr h2))
      · simp only [Option.some.injEq, Prod.mk.injEq] at hm2
        exact hm2.1.symm
    · rw [if_neg h2]
      rw [hrc] at h1 h2
      by_cases h3 : f = t
      · rw [if_pos h3]
        constructor
        · constructor
          · intro h
            simp only [Option.some.injEq, Prod.mk.injEq] at h
            exact absurd h.2 (by decide)
          · intro h
            omega
        · intro m2 hm2
          simp only [Option.some.injEq, Prod.mk.injEq] at hm2
          exact absurd hm2.2 (by decide)
      · rw [if_neg h3]
        cases hq : qlistMove m.active f.toNat t.toNat with
        | none =>
            refine ⟨⟨(fun h => by cases h), (fun h => by omega)⟩,
              (fun m2 hm2 => by cases hm2)⟩
        | some moved =>
            refine ⟨⟨(fun h => ?_), (fun h => by omega)⟩, (fun m2 hm2 => ?_)⟩
            · simp only [Option.some.injEq, Prod.mk.injEq] at h
              exact absurd h.2 (by decide)
            · simp only [Option.some.injEq, Prod.mk.injEq] at hm2
              exact absurd hm2.2 (by decide)

/-- Witness: on the one-task model, a negative source index is reported as
`false` and leaves the model untouched. -/
theorem c5_moveTask_false_iff_witness :
    sampleModel1.moveTask (-1) 0 = some (sampleModel1, false) :=
  (c5_moveTask_false_iff sampleModel1 (-1) 0).1.mpr (by decide)

/-! ## Claim C6: move round-trip -/

/-- An in-range move with distinct indices succeeds, and the resulting active
list is the renumbered moved list, with the filter flag unchanged. -/
theorem moveTask_success_shape (m : TaskModel) (a b : Nat)
    (ha : a < m.active.length) (hb : b < m.active.length) (hne : a ≠ b) :
    ∃ m2, m.moveTask (Int.ofNat a) (Int.ofNat b) = some (m2, true) ∧
      m2.active = renumberFrom 0
        ((m.active.eraseIdx a).insertIdx b (m.active.get ⟨a, ha⟩)) ∧
      m2.isFiltered = m.isFiltered := by
  have hrc : m.rowCount = m.active.length := rowCount_eq_length_active m
  unfold TaskModel.moveTask
  rw [if_neg (by rw [hrc]; simp only [Int.ofNat_eq_natCast]; omega),
    if_neg (by rw [hrc]; simp only [Int.ofNat_eq_natCast]; omega),
    if_neg (by intro hcon; exact hne (Int.ofNat.inj hcon))]
  have hq : qlistMove m.active (Int.ofNat a).toNat (Int.ofNat b).toNat =
      some ((m.active.eraseIdx a).insertIdx b (m.active.get ⟨a, ha⟩)) := by
    have ha2 : (Int.ofNat a).toNat = a := rfl
    have hb2 : (Int.ofNat b).toNat = b := rfl
    rw [ha2, hb2]
    exact qlistMove_in_range m.active a b ha hb
  rw [hq]
  cases hfil : m.isFiltered with
  | false =>
      refine ⟨_, rfl, ?_, ?_⟩
      · simp only [hfil, Bool.false_eq_true, if_false]
        rw [updateDisplayOrders_unfiltered
          { tasks := (m.active.eraseIdx a).insertIdx b (m.active.get ⟨a, ha⟩),
            filteredTasks := m.filteredTasks, isFiltered := false } rfl]
        simp [TaskModel.active, TaskModel.updateDisplayOrders]
      · simp only [hfil, Bool.false_eq_true, if_false]
        rw [updateDisplayOrders_unfiltered
          { tasks := (m.active.eraseIdx a).insertIdx b (m.active.get ⟨a, ha⟩),
            filteredTasks := m.filteredTasks, isFiltered := false } rfl]
        simp
  | true =>
      refine ⟨_, rfl, ?_, ?_⟩
      · simp only [hfil, if_true]
        rw [updateDisplayOrders_filtered
          { tasks := m.tasks,
            filteredTasks := (m.active.eraseIdx a).insertIdx b (m.active.get ⟨a, ha⟩),
            isFiltered := true } rfl]
        simp [TaskModel.active]
      · simp only [hfil, if_true]
        rw [updateDisplayOrders_filtered
          { tasks := m.tasks,
            filteredTasks := (m.active.eraseIdx a).insertIdx b (m.active.get ⟨a, ha⟩),
            isFiltered := true } rfl]
        simp

/-- C6, confirmed: for distinct in-range indices `a, b` of the active
sequence, `move(a, b)` succeeds, lands the moved element at index `b` (so
`b` is its new index, the claim's `b'`), and the follow-up `move(b, a)`
succeeds and restores the original order of the active sequence (its tasks
in their original id order). -/
theorem c6_move_roundtrip (m : TaskModel) (a b : Nat)
    (ha : a < m.active.length) (hb : b < m.active.length) (hne : a ≠ b) :
    ∃ m1 m2, m.moveTask (Int.ofNat a) (Int.ofNat b) = some (m1, true) ∧
      m1.moveTask (Int.ofNat b) (Int.ofNat a) = some (m2, true) ∧
      m2.active.map Task.id = m.active.map Task.id := by
  obtain ⟨m1, hm1, hact1, hfil1⟩ := moveTask_success_shape m a b ha hb hne
  have hq1 : qlistMove m.active a b =
      some ((m.active.eraseIdx a).insertIdx b (m.active.get ⟨a, ha⟩)) :=
    qlistMove_in_range m.active a b ha hb
  have hlen1 : m1.active.length = m.active.length := by
    rw [hact1, length_renumberFrom]
    exact length_qlistMove hq1
  have hb1 : b < m1.active.length := by omega
  have ha1 : a < m1.active.length := by omega
  obtain ⟨m2, hm2, hact2, hfil2⟩ := moveTask_success_shape m1 b a hb1 ha1 (Ne.symm hne)
  refine ⟨m1, m2, hm1, hm2, ?_⟩
  have hq2 : qlistMove m1.active b a =
      some ((m1.active.eraseIdx b).insertIdx a (m1.active.get ⟨b, hb1⟩)) :=
    qlistMove_in_range m1.active b a hb1 ha1
  have hidmap1 : m1.active.map Task.id =
      ((m.active.eraseIdx a).insertIdx b (m.active.get ⟨a, ha⟩)).map Task.id := by
    rw [hact1, map_id_renumberFrom]
  have hmv1 : qlistMove (m.active.map Task.id) a b = some (m1.active.map Task.id) := by
    rw [hidmap1]
    exact map_qlistMove Task.id hq1
  have hmv2 : qlistMove (m1.active.map Task.id) b a = some (m2.active.map Task.id) := by
    have : m2.active.map Task.id =
        ((m1.active.eraseIdx b).insertIdx a (m1.active.get ⟨b, hb1⟩)).map Task.id := by
      rw [hact2, map_id_renumberFrom]
    rw [this]
    exact map_qlistMove Task.id hq2
  have hround := qlistMove_roundtrip (m.active.map Task.id) a b
    (by simpa using ha) (by simpa using hb)
  rw [hmv1, Option.some_bind, hmv2] at hround
  exact Option.some.inj hround

/-- Witness: on the three-task model, moving 0 to 2 and then 2 back to 0
restores the id order `[a, b, c]`. -/
theorem c6_move_roundtrip_witness :
    ∃ m1 m2, sampleModel3.moveTask (Int.ofNat 0) (Int.ofNat 2) = some (m1, true) ∧
      m1.moveTask (Int.ofNat 2) (Int.ofNat 0) = some (m2, true) ∧
      m2.active.map Task.id = sampleModel3.active.map Task.id :=
  c6_move_roundtrip sampleModel3 0 2 (by decide) (by decide) (by decide)

/-! ## Sortedness of `sortWith` under a strict weak order -/

theorem mem_insertSorted (lt : Task → Task → Bool) (x b : Task) :
    ∀ l : List Task, b ∈ insertSorted lt x l → b = x ∨ b ∈ l
  | [] => by simp [insertSorted]
  | y :: ys => by
      simp only [insertSorted]
      split
      · intro h
        simpa using h
      · intro h
        rcases List.mem_cons.mp h with h | h
        · exact Or.inr (by simp [h])
        · rcases mem_insertSorted lt x b ys h with h | h
          · exact Or.inl h
          · exact Or.inr (List.mem_cons_of_mem _ h)

theorem pairwise_insertSorted (lt : Task → Task → Bool)
    (hasym : ∀ a b, lt a b = true → lt b a = false)
    (htrans : ∀ a b c, lt b a = false → lt c b = false → lt c a = false) (x : Task) :
    ∀ l, l.Pairwise (fun a b => lt b a = false) →
      (insertSorted lt x l).Pairwise (fun a b => lt b a = false)
  | [], _ => by simp [insertSorted]
  | y :: ys, hp => by
      rcases List.pairwise_cons.mp hp with ⟨hy, hys⟩
      simp only [insertSorted]
      split
      · rename_i hxy
        refine List.pairwise_cons.mpr ⟨?_, hp⟩
        intro b hb
        rcases List.mem_cons.mp hb with rfl | hb
        · exact hasym x b hxy
        · exact htrans x y b (hasym x y hxy) (hy b hb)
      · rename_i hxy
        have hxy2 : lt x y = false := by
          cases hcase : lt x y
          · rfl
          · exact absurd hcase hxy
        refine List.pairwise_cons.mpr
          ⟨?_, pairwise_insertSorted lt hasym htrans x ys hys⟩
        intro b hb
        rcases mem_insertSorted lt x b ys hb with rfl | hb
        · exact hxy2
        · exact hy b hb

theorem pairwise_sortWith (lt : Task → Task → Bool)
    (hasym : ∀ a b, lt a b = true → lt b a = false)
    (htrans : ∀ a b c, lt b a = false → lt c b = false → lt c a = false) :
    ∀ l, (sortWith lt l).Pairwise (fun a b => lt b a = false)
  | [] => List.Pairwise.nil
  | x :: xs =>
      pairwise_insertSorted lt hasym htrans x _
        (pairwise_sortWith lt hasym htrans xs)

/-- The due-date comparator is asymmetric. -/
theorem dueDateLt_asym (asc : Bool) (a b : Task) (h : dueDateLt asc a b = true) :
    dueDateLt asc b a = false := by
  unfold dueDateLt at h ⊢
  rcases ha : a.dueDate with _ | x <;> rcases hb : b.dueDate with _ | y <;>
    rw [ha, hb] at h <;> first
    | cases h
    | rfl
    | (cases asc <;> simp_all <;> omega)

/-- The due-date comparator is negatively transitive. -/
theorem dueDateLt_negtrans (asc : Bool) (a b c : Task)
    (h1 : dueDateLt asc b a = false) (h2 : dueDateLt asc c b = false) :
    dueDateLt asc c a = false := by
  unfold dueDateLt at h1 h2 ⊢
  rcases ha : a.dueDate with _ | x <;> rcases hb : b.dueDate with _ | y <;>
    rcases hc : c.dueDate with _ | z <;>
    rw [hb, ha] at h1 <;> rw [hc, hb] at h2 <;> first
    | rfl
    | (cases asc <;> simp_all <;> omega)

/-! ## Claim C4: the due-date sort -/

/-- The active list after `sortByDueDate` is the renumbered sorted active
list, whichever list is active. -/
theorem active_sortByDueDate (m : TaskModel) (asc : Bool) :
    (m.sortByDueDate asc).active =
      renumberFrom 0 (sortWith (dueDateLt asc) m.active) := by
  unfold TaskModel.sortByDueDate
  cases hfil : m.isFiltered
  · simp only [Bool.false_eq_true, if_false]
    rw [updateDisplayOrders_unfiltered _ rfl]
    simp [TaskModel.active, hfil]
  · simp only [eq_self_iff_true, if_true]
    rw [updateDisplayOrders_filtered _ rfl]
    simp [TaskModel.active, hfil]

/-- C4, confirmed: after `sortByDueDate(ascending)` on the active sequence,
every task with a set due date precedes every task with an unset one, and any
two set due dates appear in non-decreasing timestamp order when ascending and
non-increasing order when descending. -/
theorem c4_sortByDueDate_ordering (m : TaskModel) (asc : Bool) :
    ((m.sortByDueDate asc).active.map Task.dueDate).Pairwise (fun x y =>
      (x = none → y = none) ∧
      ∀ p q : Int, x = some p → y = some q → (if asc then p ≤ q else q ≤ p)) := by
  rw [active_sortByDueDate, map_dueDate_renumberFrom]
  have hp := pairwise_sortWith (dueDateLt asc) (dueDateLt_asym asc)
    (dueDateLt_negtrans asc) m.active
  refine List.Pairwise.map Task.dueDate ?_ hp
  intro a b h
  constructor
  · intro hx
    cases hb : b.dueDate with
    | none => rfl
    | some y =>
        exfalso
        unfold dueDateLt at h
        rw [hb, hx] at h
        cases h
  · intro p q hx hy
    unfold dueDateLt at h
    rw [hy, hx] at h
    cases asc
    · simpa using h
    · simpa using h

/-! ## Claim C7: persistence round trip -/

theorem timeOfIso_isoOfTime (t : Int) : timeOfIso (isoOfTime t) = some t := by
  unfold isoOfTime timeOfIso
  by_cases h : t < 0
  · rw [if_pos h]
    simp
    omega
  · rw [if_neg h]
    simp
    omega

theorem isoOfTime_ne_empty (t : Int) : isoOfTime t ≠ "" := by
  unfold isoOfTime
  intro hcon
  by_cases h : t < 0
  · rw [if_pos h] at hcon
    have := congrArg String.data hcon
    simp at this
  · rw [if_neg h] at hcon
    have := congrArg String.data hcon
    simp at this

/-- Decoding a stored row recovers the task it encodes, field for field. -/
theorem rowToTask_taskToRow (t : Task) : rowToTask (taskToRow t) = t := by
  obtain ⟨i, ti, de, co, cr, du, ca, pr, od⟩ := t
  unfold rowToTask taskToRow encodeDate
  simp only [Task.mk.injEq, true_and, and_true]
  refine ⟨?_, ?_, ?_⟩
  · cases co <;> rfl
  · cases cr with
    | none => rfl
    | some c => exact timeOfIso_isoOfTime c
  · cases du with
    | none => rfl
    | some d =>
        rw [if_neg (isoOfTime_ne_empty d)]
        exact timeOfIso_isoOfTime d

/-- C7, confirmed: on an initialized store, `saveTasks` succeeds and
`loadTasks` returns exactly the saved tasks, field for field; in particular a
task with an unset due date is stored with an empty `due_date` string (and
loads back unset, as the round trip shows). -/
theorem c7_save_load_roundtrip (db : Database) (ts : List Task)
    (h : db.initialized = true) :
    (db.saveTasks ts).2 = true ∧ (db.saveTasks ts).1.loadTasks = ts ∧
    ∀ t ∈ ts, t.dueDate = none → (taskToRow t).due_date = "" := by
  unfold Database.saveTasks Database.loadTasks
  rw [if_pos h]
  refine ⟨rfl, ?_, ?_⟩
  · rw [if_pos h]
    simp only [List.map_map]
    have hcongr : ts.map (rowToTask ∘ taskToRow) = ts.map id := by
      refine List.map_congr_left ?_
      intro x _
      exact rowToTask_taskToRow x
    rw [hcongr, List.map_id]
  · intro t _ hdue
    unfold taskToRow encodeDate
    rw [hdue]

/-- Witness: the round trip at two concrete tasks, one with and one without a
due date. -/
theorem c7_save_load_roundtrip_witness :
    (sampleDb.saveTasks [taskA, taskB]).2 = true ∧
    (sampleDb.saveTasks [taskA, taskB]).1.loadTasks = [taskA, taskB] ∧
    ∀ t ∈ [taskA, taskB], t.dueDate = none → (taskToRow t).due_date = "" :=
  c7_save_load_roundtrip sampleDb [taskA, taskB] rfl

/-! ## Claim C8: the "empty" sentinel task is not actually detectable -/

/-- The brace-stripped UUID string always has 36 characters, whatever the
generator returns. -/
theorem quuidString_length (a b c d e : Nat) :
    (quuidString a b c d e).length = 36 := by
  unfold quuidString hexPad
  simp [String.length]

/-- C8, code_bug: `getTask` does scan only the authoritative list (its result
does not depend on the filtered list or the filter flag, first conjunct), and
returns the match when present (second conjunct); but on a miss the
default-constructed sentinel carries a fresh 36-character UUID id, never the
empty id, so the `task.id().isEmpty()` not-found test used by
`TaskController::updateTask` can never fire: updating a missing id proceeds
and upserts a phantom row keyed by the fresh UUID (last two conjuncts). -/
theorem c8_sentinel_not_detectable :
    (∀ (tasks fs fs2 : List Task) (b b2 : Bool) (tid fresh : String) (now : Int),
      (TaskModel.mk tasks fs b).getTask tid fresh now =
        (TaskModel.mk tasks fs2 b2).getTask tid fresh now) ∧
    (sampleModel3.getTask "a" sampleUuid 0).id = "a" ∧
    (TaskModel.init.getTask "missing" sampleUuid 0).id = sampleUuid ∧
    (TaskModel.init.getTask "missing" sampleUuid 0).id ≠ "" ∧
    (controllerUpdateTask "missing" "T" "cat" "" none 3 sampleUuid 0 sampleApp).2
      = true ∧
    (controllerUpdateTask "missing" "T" "cat" "" none 3 sampleUuid 0
        sampleApp).1.db.taskRows.map TaskRow.id = [sampleUuid] := by
  refine ⟨?_, ?_, ?_, ?_, ?_, ?_⟩
  · intro tasks fs fs2 b b2 tid fresh now
    rfl
  · decide
  · rfl
  · decide
  · decide
  · decide

/-! ## Claim C9: the record saved after an add still carries the sentinel -/

/-- The shape of `TaskController::addTask` on a non-empty title: the model
receives the built task (and assigns its copy the next display order), while
`DatabaseManager::saveTask` receives the controller's local copy unchanged. -/
theorem controllerAddTask_shape (s : AppState)
    (title categoryId description : String) (due : Option Int) (priority : Int)
    (fresh : String) (now : Int) (h : title ≠ "") :
    controllerAddTask title categoryId description due priority fresh now s =
      ({ model := s.model.addTask
            (builtTask title categoryId description due priority fresh now),
         db := (s.db.saveTask
            (builtTask title categoryId description due priority fresh now)).1 },
        (s.db.saveTask
            (builtTask title categoryId description due priority fresh now)).2) := by
  unfold controllerAddTask
  rw [if_neg h]
  rcases hp : s.db.saveTask
      (builtTask title categoryId description due priority fresh now) with ⟨db2, ok2⟩
  have : ({ Task.mkNew title categoryId fresh now with
      description := description, dueDate := due, priority := priority } : Task) =
      builtTask title categoryId description due priority fresh now := rfl
  rw [this]
  simp only [hp]

/-- C9, corrected: after `TaskController::addTask` with a non-empty title, the
record handed to the persistence port's single-record save is the
controller's local copy, which still carries the sentinel `displayOrder = -1`
(and its row stores `display_order = -1`); the display order assigned at
insertion (`getNextDisplayOrder`, always ≥ 0) is carried only by the copy
appended to the model's authoritative list. -/
theorem c9_add_saves_sentinel_order (s : AppState)
    (title categoryId description : String) (due : Option Int) (priority : Int)
    (fresh : String) (now : Int) (h : title ≠ "") :
    (controllerAddTask title categoryId description due priority fresh now s).1.db =
      (s.db.saveTask
        (builtTask title categoryId description due priority fresh now)).1 ∧
    (builtTask title categoryId description due priority fresh now).displayOrder
      = -1 ∧
    (taskToRow
      (builtTask title categoryId description due priority fresh now)).display_order
      = -1 ∧
    (controllerAddTask title categoryId description due priority fresh
        now s).1.model.tasks =
      s.model.tasks ++ [{ builtTask title categoryId description due priority
        fresh now with displayOrder := s.model.getNextDisplayOrder }] ∧
    0 ≤ s.model.getNextDisplayOrder := by
  rw [controllerAddTask_shape s title categoryId description due priority fresh now h]
  refine ⟨rfl, rfl, rfl, ?_, getNextDisplayOrder_nonneg s.model⟩
  exact addTask_tasks s.model (builtTask title categoryId description due priority fresh now)

/-- Witness: the corrected C9 statement at a concrete add. -/
theorem c9_add_saves_sentinel_order_witness :
    (controllerAddTask "t" "c" "" none 3 "u1" 0 sampleApp).1.db =
      (sampleDb.saveTask (builtTask "t" "c" "" none 3 "u1" 0)).1 ∧
    (builtTask "t" "c" "" none 3 "u1" 0).displayOrder = -1 ∧
    (taskToRow (builtTask "t" "c" "" none 3 "u1" 0)).display_order = -1 ∧
    (controllerAddTask "t" "c" "" none 3 "u1" 0 sampleApp).1.model.tasks =
      TaskModel.init.tasks ++ [{ builtTask "t" "c" "" none 3 "u1" 0 with
        displayOrder := TaskModel.init.getNextDisplayOrder }] ∧
    0 ≤ TaskModel.init.getNextDisplayOrder :=
  c9_add_saves_sentinel_order sampleApp "t" "c" "" none 3 "u1" 0 (by decide)

/-- Counterexample to C9 as stated: on an empty model over an initialized
store, adding a task stores a row with `display_order = -1` while the model's
appended copy has display order 0 — the saved record is not the appended one
and carries the sentinel, not the assigned order. -/
theorem c9_counterexample :
    (controllerAddTask "t" "c" "" none 3 "u1" 0 sampleApp).1.db.taskRows.map
        TaskRow.display_order = [-1] ∧
    (controllerAddTask "t" "c" "" none 3 "u1" 0 sampleApp).1.model.tasks.map
        Task.displayOrder = [0] ∧
    (controllerAddTask "t" "c" "" none 3 "u1" 0 sampleApp).2 = true :=
  ⟨by decide, by decide, by decide⟩

/-! ## Claim C10: priority is stored exactly, with no clamping -/

/-- C10, confirmed: for every integer `p` — in or out of 1..5 — adding a task
with priority `p` appends to the model a record with priority exactly `p` and
hands the store a record (and row) with priority exactly `p`; and updating
the priority of the task at any valid row through the model's setter stores
exactly `p` in the active list.  No engine or record operation clamps,
rejects, or defaults it. -/
theorem c10_priority_stored_exactly (p : Int) (s : AppState)
    (title categoryId description : String) (due : Option Int)
    (fresh : String) (now : Int) (h : title ≠ "") :
    (∃ tl, (controllerAddTask title categoryId description due p fresh
        now s).1.model.tasks = s.model.tasks ++ [tl] ∧ tl.priority = p) ∧
    (taskToRow (builtTask title categoryId description due p fresh now)).priority
      = p ∧
    (controllerAddTask title categoryId description due p fresh now s).1.db =
      (s.db.saveTask (builtTask title categoryId description due p fresh now)).1 ∧
    (∀ (m : TaskModel) (i : Nat), i < m.rowCount →
      ((m.setDataAt (fun t => { t with priority := p }) i).1.active.get? i).map
        Task.priority = some p) := by
  rw [controllerAddTask_shape s title categoryId description due p fresh now h]
  refine ⟨⟨{ builtTask title categoryId description due p fresh now with
      displayOrder := s.model.getNextDisplayOrder },
      addTask_tasks s.model _, rfl⟩, rfl, rfl, ?_⟩
  intro m i hi
  unfold TaskModel.setDataAt
  rw [if_pos hi]
  cases hfil : m.isFiltered
  · have hi2 : i < m.tasks.length := by
      unfold TaskModel.rowCount at hi
      rw [hfil] at hi
      simpa using hi
    simp only [Bool.false_eq_true, if_false]
    rw [List.get?_eq_get hi2]
    unfold TaskModel.active
    simp only [hfil, Bool.false_eq_true, if_false]
    rw [List.get?_set_eq_of_lt _ hi2]
    rfl
  · have hi2 : i < m.filteredTasks.length := by
      unfold TaskModel.rowCount at hi
      rw [hfil] at hi
      simpa using hi
    simp only [if_true]
    rw [List.get?_eq_get hi2]
    unfold TaskModel.active
    simp only [hfil, if_true]
    rw [List.get?_set_eq_of_lt _ hi2]
    rfl

/-- Witness: an out-of-range priority 99 is stored exactly. -/
theorem c10_priority_stored_exactly_witness :
    (∃ tl, (controllerAddTask "t" "c" "" none 99 "u1" 0
        sampleApp).1.model.tasks = TaskModel.init.tasks ++ [tl] ∧
        tl.priority = 99) ∧
    (taskToRow (builtTask "t" "c" "" none 99 "u1" 0)).priority = 99 ∧
    (controllerAddTask "t" "c" "" none 99 "u1" 0 sampleApp).1.db =
      (sampleDb.saveTask (builtTask "t" "c" "" none 99 "u1" 0)).1 ∧
    (∀ (m : TaskModel) (i : Nat), i < m.rowCount →
      ((m.setDataAt (fun t => { t with priority := 99 }) i).1.active.get? i).map
        Task.priority = some 99) :=
  c10_priority_stored_exactly 99 sampleApp "t" "c" "" none "u1" 0 (by decide)

end TodoWidget
